import Mathlib

/-!
Verification of the ticket-ledger core shared by the repository's
front-ends (`TicketTransaction`, `Block`, `TicketBlockchain` in
`andi.py` / `69.py` / `apple.py`; the three copies are identical).

Embedding conventions:
* Python `time.time()` float timestamps are opaque external inputs.  A
  timestamp is modelled as the exact decimal text that `json.dumps`
  would emit for the float (e.g. `"1700000000.0"`); it is threaded into
  every constructor as a parameter.
* `uuid.uuid4()` ticket identifiers are external inputs to
  `issue_ticket`; the step relation below assumes, as the documentation
  states, that a generated identifier is globally fresh.
* Python `dict` is modelled by an insertion-ordered association list
  with Python's update-in-place / append-on-new-key semantics.
* `hashlib.sha256(...).hexdigest()` is implemented bit-for-bit below
  over lists of byte values.
-/

/-! ## SHA-256 over lists of bytes (values < 256), words as `Nat` mod 2^32 -/

def w32 : Nat := 4294967296

def add32 (a b : Nat) : Nat := (a + b) % w32

def rotr32 (x n : Nat) : Nat := ((x >>> n) ||| (x <<< (32 - n))) % w32

def shaS0 (x : Nat) : Nat := Nat.xor (rotr32 x 7) (Nat.xor (rotr32 x 18) (x >>> 3))

def shaS1 (x : Nat) : Nat := Nat.xor (rotr32 x 17) (Nat.xor (rotr32 x 19) (x >>> 10))

def shaB0 (x : Nat) : Nat := Nat.xor (rotr32 x 2) (Nat.xor (rotr32 x 13) (rotr32 x 22))

def shaB1 (x : Nat) : Nat := Nat.xor (rotr32 x 6) (Nat.xor (rotr32 x 11) (rotr32 x 25))

def shaCh (x y z : Nat) : Nat :=
  Nat.xor (Nat.land x y) (Nat.land (Nat.xor x 4294967295) z)

def shaMaj (x y z : Nat) : Nat :=
  Nat.xor (Nat.land x y) (Nat.xor (Nat.land x z) (Nat.land y z))

def shaK : Array Nat := #[
  1116352408, 1899447441, 3049323471, 3921009573, 961987163, 1508970993, 2453635748, 2870763221,
  3624381080, 310598401, 607225278, 1426881987, 1925078388, 2162078206, 2614888103, 3248222580,
  3835390401, 4022224774, 264347078, 604807628, 770255983, 1249150122, 1555081692, 1996064986,
  2554220882, 2821834349, 2952996808, 3210313671, 3336571891, 3584528711, 113926993, 338241895,
  666307205, 773529912, 1294757372, 1396182291, 1695183700, 1986661051, 2177026350, 2456956037,
  2730485921, 2820302411, 3259730800, 3345764771, 3516065817, 3600352804, 4094571909, 275423344,
  430227734, 506948616, 659060556, 883997877, 958139571, 1322822218, 1537002063, 1747873779,
  1955562222, 2024104815, 2227730452, 2361852424, 2428436474, 2756734187, 3204031479, 3329325298]

def shaH0 : List Nat :=
  [1779033703, 3144134277, 1013904242, 2773480762, 1359893119, 2600822924, 528734635, 1541459225]

/-- Big-endian bytes of `n`, `count` bytes. -/
def natBytesBE (count n : Nat) : List Nat :=
  (List.range count).map (fun i => (n >>> (8 * (count - 1 - i))) % 256)

/-- SHA-256 padding: append 0x80, zeros, then the 64-bit big-endian bit length. -/
def shaPad (msg : List Nat) : List Nat :=
  let L := msg.length
  let k := (119 - L % 64) % 64
  msg ++ [128] ++ List.replicate k 0 ++ natBytesBE 8 (8 * L)

/-- Group bytes, four at a time big-endian, into 32-bit words. -/
def bytesToWords : List Nat → List Nat
  | b0 :: b1 :: b2 :: b3 :: rest => (((b0 * 256 + b1) * 256 + b2) * 256 + b3) :: bytesToWords rest
  | _ => []

/-- Group a word list into 16-word chunks (structurally recursive). -/
def words16 : List Nat → List (List Nat)
  | w0 :: w1 :: w2 :: w3 :: w4 :: w5 :: w6 :: w7 ::
    w8 :: w9 :: w10 :: w11 :: w12 :: w13 :: w14 :: w15 :: rest =>
      [w0, w1, w2, w3, w4, w5, w6, w7, w8, w9, w10, w11, w12, w13, w14, w15] :: words16 rest
  | _ => []

/-- Extend a 16-word chunk to the 64-word message schedule. -/
def shaSchedule (chunk : List Nat) : Array Nat :=
  (List.range 48).foldl
    (fun w j =>
      w.push (add32 (add32 (shaS1 (w.getD (j + 14) 0)) (w.getD (j + 9) 0))
                    (add32 (shaS0 (w.getD (j + 1) 0)) (w.getD j 0))))
    (Array.mk chunk)

/-- One compression round state: (a,b,c,d,e,f,g,h). -/
def shaCompress (hs : List Nat) (chunk : List Nat) : List Nat :=
  let w := shaSchedule chunk
  let a0 := hs.getD 0 0
  let b0 := hs.getD 1 0
  let c0 := hs.getD 2 0
  let d0 := hs.getD 3 0
  let e0 := hs.getD 4 0
  let f0 := hs.getD 5 0
  let g0 := hs.getD 6 0
  let h0 := hs.getD 7 0
  let fin :=
    (List.range 64).foldl
      (fun (st : Nat × Nat × Nat × Nat × Nat × Nat × Nat × Nat) i =>
        let (a, b, c, d, e, f, g, h) := st
        let t1 := add32 h (add32 (shaB1 e)
                    (add32 (shaCh e f g) (add32 (shaK.getD i 0) (w.getD i 0))))
        let t2 := add32 (shaB0 a) (shaMaj a b c)
        (add32 t1 t2, a, b, c, add32 d t1, e, f, g))
      (a0, b0, c0, d0, e0, f0, g0, h0)
  let (a, b, c, d, e, f, g, h) := fin
  [add32 a0 a, add32 b0 b, add32 c0 c, add32 d0 d,
   add32 e0 e, add32 f0 f, add32 g0 g, add32 h0 h]

def hexChar (n : Nat) : Char := if n < 10 then Char.ofNat (48 + n) else Char.ofNat (87 + n)

/-- Lowercase hex, 8 digits, of a 32-bit word. -/
def wordHex (n : Nat) : String :=
  String.mk ((List.range 8).map (fun i => hexChar ((n >>> (4 * (7 - i))) % 16)))

/-- Embeds `hashlib.sha256(msg).hexdigest()`. -/
def sha256hex (msg : List Nat) : String :=
  let chunks := words16 (bytesToWords (shaPad msg))
  let hs := chunks.foldl shaCompress shaH0
  String.join (hs.map wordHex)

/-- UTF-8 bytes of one character (Python `str.encode()`). -/
def charBytes (c : Char) : List Nat :=
  let n := c.toNat
  if n < 128 then [n]
  else if n < 2048 then [192 + n / 64, 128 + n % 64]
  else if n < 65536 then [224 + n / 4096, 128 + n / 64 % 64, 128 + n % 64]
  else [240 + n / 262144, 128 + n / 4096 % 64, 128 + n / 64 % 64, 128 + n % 64]

/-- UTF-8 bytes of a string (Python `str.encode()`). -/
def strBytes (s : String) : List Nat :=
  s.data.foldr (fun c acc => charBytes c ++ acc) []

set_option maxRecDepth 100000

/-! ## JSON serialization (`json.dumps` with `sort_keys=True`, default separators,
`ensure_ascii=True`) -/

def hex4 (n : Nat) : String :=
  String.mk [hexChar (n / 4096 % 16), hexChar (n / 256 % 16), hexChar (n / 16 % 16),
    hexChar (n % 16)]

/-- One character of a JSON string literal, as Python's `json.dumps` emits it
(ASCII printable characters verbatim, everything else escaped). -/
def escChar (c : Char) : String :=
  if c = '"' then "\\\""
  else if c = '\\' then "\\\\"
  else if c.toNat = 10 then "\\n"
  else if c.toNat = 13 then "\\r"
  else if c.toNat = 9 then "\\t"
  else if c.toNat = 8 then "\\b"
  else if c.toNat = 12 then "\\f"
  else if c.toNat < 32 then "\\u" ++ hex4 c.toNat
  else if c.toNat < 127 then String.singleton c
  else if c.toNat < 65536 then "\\u" ++ hex4 c.toNat
  else "\\u" ++ hex4 (55296 + (c.toNat - 65536) / 1024) ++
       "\\u" ++ hex4 (56320 + (c.toNat - 65536) % 1024)

def jsonStr (s : String) : String := "\"" ++ String.join (s.data.map escChar) ++ "\""

def jsonOptStr : Option String → String
  | none => "null"
  | some s => jsonStr s

/-! ## Data model (`TicketTransaction`, `Block`, `TicketBlockchain`) -/

/-- Embeds `TicketTransaction.__init__`: `event` defaults to `None` (absent except for
`issue`), `new_owner` defaults to `None` (present only for `transfer`).
`timestamp` is the serialized text of the `time.time()` float captured at
construction. -/
structure TicketTransaction where
  tx_type : String
  ticket_id : String
  owner : String
  event : Option String
  new_owner : Option String
  timestamp : String
deriving DecidableEq

/-- Embeds `json.dumps(tx.to_dict(), sort_keys=True)`: `to_dict` returns `__dict__`,
whose keys sort as event, new_owner, owner, ticket_id, timestamp, tx_type. -/
def txJson (t : TicketTransaction) : String :=
  "\x7b\"event\": " ++ jsonOptStr t.event ++
  ", \"new_owner\": " ++ jsonOptStr t.new_owner ++
  ", \"owner\": " ++ jsonStr t.owner ++
  ", \"ticket_id\": " ++ jsonStr t.ticket_id ++
  ", \"timestamp\": " ++ t.timestamp ++
  ", \"tx_type\": " ++ jsonStr t.tx_type ++ "\x7d"

/-- Embeds `Block.__init__` fields plus the `hash` attribute that Python assigns
after sealing (`""` stands for "not yet assigned"; it is never serialized). -/
structure Block where
  index : Nat
  transactions : List TicketTransaction
  timestamp : String
  previous_hash : String
  nonce : Nat
  hash : String
deriving DecidableEq

instance : Inhabited Block := ⟨⟨0, [], "", "", 0, ""⟩⟩

/-- The `block_string` of `Block.compute_hash`: `json.dumps({...}, sort_keys=True)`
with keys index, nonce, previous_hash, timestamp, transactions in sorted order,
the transaction list serialized in its stored order. -/
def block_string (b : Block) : String :=
  "\x7b\"index\": " ++ toString b.index ++
  ", \"nonce\": " ++ toString b.nonce ++
  ", \"previous_hash\": " ++ jsonStr b.previous_hash ++
  ", \"timestamp\": " ++ b.timestamp ++
  ", \"transactions\": [" ++ String.intercalate ", " (b.transactions.map txJson) ++ "]\x7d"

/-- Embeds `Block.compute_hash`: SHA-256 hex digest of the UTF-8 encoded block string. -/
def compute_hash (b : Block) : String := sha256hex (strBytes (block_string b))

/-- Projected ticket state `{"owner": ..., "status": ..., "event": ...}`. -/
structure Ticket where
  owner : String
  status : String
  event : String
deriving DecidableEq

/-- Python `dict.get`: first (only) binding of the key in the association list. -/
def dictGet (l : List (String × Ticket)) (k : String) : Option Ticket :=
  match l with
  | [] => none
  | (k2, v) :: rest => if k2 = k then some v else dictGet rest k

/-- Python `d[k] = v`: update in place preserving position, or append a new
binding at the end. -/
def dictSet (l : List (String × Ticket)) (k : String) (v : Ticket) :
    List (String × Ticket) :=
  match l with
  | [] => [(k, v)]
  | (k2, v2) :: rest => if k2 = k then (k, v) :: rest else (k2, v2) :: dictSet rest k v

/-- Embeds the `TicketBlockchain` state: chain, pending pool, ticket index. -/
structure TicketBlockchain where
  chain : List Block
  pending_transactions : List TicketTransaction
  tickets : List (String × Ticket)
deriving DecidableEq

def difficulty : Nat := 2

/-- Embeds `"0" * difficulty`. -/
def difficultyTarget : String := String.mk (List.replicate difficulty '0')

/-- Python `str.startswith` over the character sequences. -/
def startswith (s p : String) : Bool := p.data.isPrefixOf s.data

/-- The proof-of-work predicate checked by the `while` loop: the hash of the
block with its nonce set to `n` starts with `difficulty` zero characters. -/
def powOk (b : Block) (n : Nat) : Bool :=
  startswith (compute_hash { b with nonce := n }) difficultyTarget

/-- Embeds `TicketBlockchain.proof_of_work`: reset `nonce` to 0 and increment it until
the recomputed hash satisfies the difficulty predicate; the loop's result is the
least satisfying nonce.  The hypothesis `h` supplies termination of the
unbounded search; the returned block carries the final nonce and, as in
`mine`, the returned hash assigned to `block.hash`. -/
def proof_of_work (b : Block) (h : ∃ n, powOk b n = true) : Block :=
  let n := Nat.find h
  { b with nonce := n, hash := compute_hash { b with nonce := n } }

/-- The unsealed `Block(0, [], "0")` of `create_genesis_block` (nonce defaults
to 0); `gts` is the genesis block's serialized creation timestamp. -/
def genesisBlock (gts : String) : Block :=
  { index := 0, transactions := [], timestamp := gts, previous_hash := "0",
    nonce := 0, hash := "" }

/-- Embeds `TicketBlockchain.__init__` plus `create_genesis_block`: the genesis block's
hash is assigned from `compute_hash` (no proof-of-work), and it is the sole
element of the chain; empty pending pool and ticket index. -/
def newTicketBlockchain (gts : String) : TicketBlockchain :=
  { chain := [{ genesisBlock gts with hash := compute_hash (genesisBlock gts) }],
    pending_transactions := [], tickets := [] }

/-- Embeds `TicketBlockchain.add_transaction`. -/
def add_transaction (s : TicketBlockchain) (tx : TicketTransaction) : TicketBlockchain :=
  { s with pending_transactions := s.pending_transactions ++ [tx] }

/-- The unsealed `Block(len(self.chain), self.pending_transactions,
self.chain[-1].compute_hash())` built by `mine` (note: the predecessor hash is
recomputed, not read from the stored `hash` attribute). -/
def newBlockOf (s : TicketBlockchain) (ts : String) : Block :=
  { index := s.chain.length, transactions := s.pending_transactions, timestamp := ts,
    previous_hash := compute_hash s.chain.getLast!, nonce := 0, hash := "" }

/-- Embeds `TicketBlockchain.mine`: `None` on an empty pending pool; otherwise seal a
new block over all pending transactions, append it, clear the pool, return it.
`h` supplies termination of the proof-of-work search when it runs. -/
def mine (s : TicketBlockchain) (ts : String)
    (h : s.pending_transactions ≠ [] → ∃ n, powOk (newBlockOf s ts) n = true) :
    TicketBlockchain × Option Block :=
  if hp : s.pending_transactions = [] then (s, none)
  else
    let sealed := proof_of_work (newBlockOf s ts) (h hp)
    ({ s with chain := s.chain ++ [sealed], pending_transactions := [] }, some sealed)

/-- Embeds `TicketBlockchain.issue_ticket`: `ticket_id` stands for the fresh
`str(uuid.uuid4())`, `ts` for the transaction's creation timestamp. -/
def issue_ticket (s : TicketBlockchain) (ticket_id owner event ts : String) :
    TicketBlockchain × String :=
  let tx : TicketTransaction := ⟨"issue", ticket_id, owner, some event, none, ts⟩
  let s1 := add_transaction s tx
  ({ s1 with tickets := dictSet s1.tickets ticket_id ⟨owner, "valid", event⟩ }, ticket_id)

/-- Embeds `TicketBlockchain.transfer_ticket`. -/
def transfer_ticket (s : TicketBlockchain) (ticket_id new_owner ts : String) :
    TicketBlockchain × Bool :=
  match dictGet s.tickets ticket_id with
  | none => (s, false)
  | some t =>
    if t.status ≠ "valid" then (s, false)
    else
      let tx : TicketTransaction := ⟨"transfer", ticket_id, t.owner, none, some new_owner, ts⟩
      let s1 := add_transaction s tx
      ({ s1 with tickets := dictSet s1.tickets ticket_id { t with owner := new_owner } }, true)

/-- Embeds `TicketBlockchain.redeem_ticket`. -/
def redeem_ticket (s : TicketBlockchain) (ticket_id ts : String) :
    TicketBlockchain × Bool :=
  match dictGet s.tickets ticket_id with
  | none => (s, false)
  | some t =>
    if t.status ≠ "valid" then (s, false)
    else
      let tx : TicketTransaction := ⟨"redeem", ticket_id, t.owner, none, none, ts⟩
      let s1 := add_transaction s tx
      ({ s1 with tickets := dictSet s1.tickets ticket_id { t with status := "redeemed" } }, true)

/-- Embeds `TicketBlockchain.verify_ticket`. -/
def verify_ticket (s : TicketBlockchain) (ticket_id : String) : Option Ticket :=
  dictGet s.tickets ticket_id

/-- One engine operation.  The `fresh` hypothesis on `issue` models the
documented guarantee that `uuid.uuid4()` identifiers are globally unique
(collision probability treated as zero). -/
inductive Step : TicketBlockchain → TicketBlockchain → Prop where
  | issue (s : TicketBlockchain) (ticket_id owner event ts : String)
      (fresh : dictGet s.tickets ticket_id = none) :
      Step s (issue_ticket s ticket_id owner event ts).1
  | transfer (s : TicketBlockchain) (ticket_id new_owner ts : String) :
      Step s (transfer_ticket s ticket_id new_owner ts).1
  | redeem (s : TicketBlockchain) (ticket_id ts : String) :
      Step s (redeem_ticket s ticket_id ts).1
  | mineStep (s : TicketBlockchain) (ts : String)
      (h : s.pending_transactions ≠ [] → ∃ n, powOk (newBlockOf s ts) n = true) :
      Step s (mine s ts h).1

/-- A ledger state produced from some fresh ledger by engine operations. -/
def Reachable (s : TicketBlockchain) : Prop :=
  ∃ gts, Relation.ReflTransGen Step (newTicketBlockchain gts) s

/-- The chain invariants of spec §3/§8: nonempty chain, every stored `hash`
recomputes from the stored fields, linkage, and the difficulty predicate on
every non-genesis block. -/
def ChainInv (s : TicketBlockchain) : Prop :=
  s.chain ≠ [] ∧
  (∀ b ∈ s.chain, b.hash = compute_hash b) ∧
  List.Chain' (fun a b => b.previous_hash = a.hash) s.chain ∧
  (∀ b ∈ s.chain, 0 < b.index → startswith b.hash difficultyTarget = true)

/-! ## Concrete states used by the witnesses and counterexamples -/

def genesisTestState : TicketBlockchain := newTicketBlockchain "1700000000.0"

def genesisTestBlock : Block := genesisBlock "1700000000.0"

def powTestBlock : Block :=
  { index := 1, transactions := [], timestamp := "2.0", previous_hash := "p",
    nonce := 0, hash := "" }

/-- Termination evidence for proof-of-work on `powTestBlock`: nonce 389
satisfies the difficulty predicate (found by search, checked by evaluation). -/
def powTestEv : ∃ n, powOk powTestBlock n = true := ⟨389, by decide⟩

/-- A copy of `powTestBlock` with a different (ignored) `hash` attribute. -/
def powTestBlock2 : Block := { powTestBlock with hash := "deadbeef" }

/-- The sealed genesis block of `genesisTestState`. -/
def genesisSealed : Block :=
  { genesisBlock "1700000000.0" with hash := compute_hash (genesisBlock "1700000000.0") }

/-- Genesis state, one issued ticket pending. -/
def issuedTestState : TicketBlockchain :=
  (issue_ticket genesisTestState "t1" "Alice" "Concert A" "2.5").1

/-- Termination evidence for mining `issuedTestState` at timestamp `"3.0"`:
nonce 233 satisfies the difficulty predicate (found by search, checked by
evaluation). -/
def issuedMineEv : issuedTestState.pending_transactions ≠ [] →
    ∃ n, powOk (newBlockOf issuedTestState "3.0") n = true :=
  fun _ => ⟨233, by decide⟩

/-- State after mining the issued ticket: two blocks, empty pending pool. -/
def minedTestState : TicketBlockchain := (mine issuedTestState "3.0" issuedMineEv).1

/-- A bare state holding one valid and one redeemed ticket (operations on the
ticket index are total functions of the state, so frame properties can be
witnessed without mining). -/
def mixedTestState : TicketBlockchain :=
  { chain := [], pending_transactions := [],
    tickets := [("t1", ⟨"Alice", "valid", "Concert A"⟩), ("t2", ⟨"Bob", "redeemed", "Concert B"⟩)] }

def emptyTestState : TicketBlockchain :=
  { chain := [], pending_transactions := [], tickets := [] }

/-! ## Sanity checks of the embedding against reference values
(`hashlib.sha256`, `json.dumps` with `sort_keys=True`) -/

theorem sha256hex_check : sha256hex (strBytes "abc") =
    "ba7816bf8f01cfea414140de5dae2223b00361a396177a9cb410ff61f20015ad" := by decide

theorem block_string_check : block_string genesisTestBlock =
    "\x7b\"index\": 0, \"nonce\": 0, \"previous_hash\": \"0\", \"timestamp\": 1700000000.0, \"transactions\": []\x7d" := by
  decide

theorem genesis_hash_check : (genesisTestState.chain.map Block.hash) =
    ["50d82b0d66572ea697cec74d73a843c77a715d6b2384ac18ed0e15346d603cb6"] := by decide

theorem powOk_check : powOk powTestBlock 389 = true := by decide

/-! ## Association-list (Python dict) lemmas -/

theorem dictGet_dictSet_self (l : List (String × Ticket)) (k : String) (v : Ticket) :
    dictGet (dictSet l k v) k = some v := by
  induction l with
  | nil => simp [dictSet, dictGet]
  | cons p rest ih =>
    obtain ⟨k2, v2⟩ := p
    by_cases h : k2 = k
    · simp [dictSet, dictGet, h]
    · simp [dictSet, dictGet, h, ih]

theorem dictGet_dictSet_ne (l : List (String × Ticket)) (k k2 : String) (v : Ticket)
    (h : k2 ≠ k) : dictGet (dictSet l k v) k2 = dictGet l k2 := by
  have hk : k ≠ k2 := Ne.symm h
  induction l with
  | nil => simp [dictSet, dictGet, hk]
  | cons p rest ih =>
    obtain ⟨k3, v3⟩ := p
    by_cases h3 : k3 = k
    · subst h3
      simp [dictSet, dictGet, hk]
    · simp [dictSet, dictGet, h3, ih]

/-! ## Projection lemmas for the operations -/

theorem issue_ticket_chain (s : TicketBlockchain) (tid o e ts : String) :
    (issue_ticket s tid o e ts).1.chain = s.chain := rfl

theorem issue_ticket_tickets (s : TicketBlockchain) (tid o e ts : String) :
    (issue_ticket s tid o e ts).1.tickets = dictSet s.tickets tid ⟨o, "valid", e⟩ := rfl

theorem transfer_ticket_chain (s : TicketBlockchain) (tid nw ts : String) :
    (transfer_ticket s tid nw ts).1.chain = s.chain := by
  unfold transfer_ticket add_transaction
  repeat' split
  all_goals rfl

theorem redeem_ticket_chain (s : TicketBlockchain) (tid ts : String) :
    (redeem_ticket s tid ts).1.chain = s.chain := by
  unfold redeem_ticket add_transaction
  repeat' split
  all_goals rfl

theorem mine_tickets (s : TicketBlockchain) (ts : String)
    (h : s.pending_transactions ≠ [] → ∃ n, powOk (newBlockOf s ts) n = true) :
    (mine s ts h).1.tickets = s.tickets := by
  unfold mine
  split
  all_goals rfl

/-! ## Failure lemmas for transfer / redeem -/

theorem transfer_ticket_none (s : TicketBlockchain) (tid nw ts : String)
    (hget : dictGet s.tickets tid = none) : transfer_ticket s tid nw ts = (s, false) := by
  unfold transfer_ticket
  rw [hget]

theorem redeem_ticket_none (s : TicketBlockchain) (tid ts : String)
    (hget : dictGet s.tickets tid = none) : redeem_ticket s tid ts = (s, false) := by
  unfold redeem_ticket
  rw [hget]

theorem transfer_ticket_stale (s : TicketBlockchain) (tid nw ts : String) (t : Ticket)
    (hget : dictGet s.tickets tid = some t) (hst : t.status ≠ "valid") :
    transfer_ticket s tid nw ts = (s, false) := by
  unfold transfer_ticket
  rw [hget]
  simp [hst]

theorem redeem_ticket_stale (s : TicketBlockchain) (tid ts : String) (t : Ticket)
    (hget : dictGet s.tickets tid = some t) (hst : t.status ≠ "valid") :
    redeem_ticket s tid ts = (s, false) := by
  unfold redeem_ticket
  rw [hget]
  simp [hst]

/-! ## Hash congruence: the serialization (and hence the hash) depends only on
the five serialized fields; the stored `hash` attribute is not serialized -/

theorem block_string_fields (b b2 : Block) (h1 : b.index = b2.index)
    (h2 : b.transactions = b2.transactions) (h3 : b.timestamp = b2.timestamp)
    (h4 : b.previous_hash = b2.previous_hash) (h5 : b.nonce = b2.nonce) :
    block_string b = block_string b2 := by
  unfold block_string
  rw [h1, h2, h3, h4, h5]

theorem compute_hash_fields (b b2 : Block) (h1 : b.index = b2.index)
    (h2 : b.transactions = b2.transactions) (h3 : b.timestamp = b2.timestamp)
    (h4 : b.previous_hash = b2.previous_hash) (h5 : b.nonce = b2.nonce) :
    compute_hash b = compute_hash b2 := by
  unfold compute_hash
  rw [block_string_fields b b2 h1 h2 h3 h4 h5]

theorem compute_hash_set_hash (b : Block) (x : String) :
    compute_hash { b with hash := x } = compute_hash b :=
  compute_hash_fields _ _ rfl rfl rfl rfl rfl

theorem compute_hash_nonce_hash (b : Block) (n : Nat) (x : String) :
    compute_hash { b with nonce := n, hash := x } = compute_hash { b with nonce := n } :=
  compute_hash_fields _ _ rfl rfl rfl rfl rfl

theorem genesisTestState_reachable : Reachable genesisTestState :=
  ⟨"1700000000.0", Relation.ReflTransGen.refl⟩

/-- C8: a block's hash is the SHA-256 hex digest of the canonical JSON
serialization of `{index, transactions (full field set each), timestamp,
previous_hash, nonce}` with keys sorted and the transaction list order
preserved; the serialization, and hence the hash, is a function of exactly
those five fields, so two blocks agreeing on them (whatever their stored
`hash` attributes) have equal serializations and equal hashes. -/
theorem C8_theorem (b b2 : Block) (h1 : b.index = b2.index)
    (h2 : b.transactions = b2.transactions) (h3 : b.timestamp = b2.timestamp)
    (h4 : b.previous_hash = b2.previous_hash) (h5 : b.nonce = b2.nonce) :
    compute_hash b = sha256hex (strBytes (block_string b)) ∧
    block_string b =
      "\x7b\"index\": " ++ toString b.index ++ ", \"nonce\": " ++ toString b.nonce ++
      ", \"previous_hash\": " ++ jsonStr b.previous_hash ++ ", \"timestamp\": " ++
      b.timestamp ++ ", \"transactions\": [" ++
      String.intercalate ", " (b.transactions.map txJson) ++ "]\x7d" ∧
    block_string b = block_string b2 ∧
    compute_hash b = compute_hash b2 :=
  ⟨rfl, rfl, block_string_fields b b2 h1 h2 h3 h4 h5,
   compute_hash_fields b b2 h1 h2 h3 h4 h5⟩

theorem C8_witness :
    powTestBlock.index = powTestBlock2.index ∧
    powTestBlock.transactions = powTestBlock2.transactions ∧
    powTestBlock.timestamp = powTestBlock2.timestamp ∧
    powTestBlock.previous_hash = powTestBlock2.previous_hash ∧
    powTestBlock.nonce = powTestBlock2.nonce ∧
    powTestBlock.hash ≠ powTestBlock2.hash ∧
    compute_hash powTestBlock = sha256hex (strBytes (block_string powTestBlock)) ∧
    block_string powTestBlock = block_string powTestBlock2 ∧
    compute_hash powTestBlock = compute_hash powTestBlock2 :=
  ⟨rfl, rfl, rfl, rfl, rfl, by decide,
   (C8_theorem powTestBlock powTestBlock2 rfl rfl rfl rfl rfl).1,
   (C8_theorem powTestBlock powTestBlock2 rfl rfl rfl rfl rfl).2.2.1,
   (C8_theorem powTestBlock powTestBlock2 rfl rfl rfl rfl rfl).2.2.2⟩

/-- C1 (counterexample to the claim as stated): the freshly initialized
ledger is reachable, yet its genesis block — sealed by `create_genesis_block`
without proof-of-work — has a hash that does not start with two zero
characters, so the difficulty conjunct fails at index 0. -/
theorem C1_counterexample :
    Reachable genesisTestState ∧
    ¬ (∀ b ∈ genesisTestState.chain, compute_hash b = b.hash ∧
        startswith b.hash difficultyTarget = true) := by
  refine ⟨genesisTestState_reachable, fun hall => ?_⟩
  have hb := hall genesisSealed (List.mem_singleton.mpr rfl)
  exact absurd hb.2 (by decide)

/- The serialization and digest definitions are opaque from here on: every
remaining proof manipulates `compute_hash` applications only through the
congruence lemmas above.  (Kernel evaluation, and hence the checking of the
evaluation-based proofs above, is unaffected.) -/
attribute [irreducible] compute_hash

/-- Unfolding of `proof_of_work` into an explicit record update. -/
theorem proof_of_work_def (b : Block) (h : ∃ n, powOk b n = true) :
    proof_of_work b h =
      { b with nonce := Nat.find h,
               hash := compute_hash { b with nonce := Nat.find h } } := rfl

/-- Unfolding of `newBlockOf` into an explicit record. -/
theorem newBlockOf_def (s : TicketBlockchain) (ts : String) :
    newBlockOf s ts =
      { index := s.chain.length, transactions := s.pending_transactions, timestamp := ts,
        previous_hash := compute_hash s.chain.getLast!, nonce := 0, hash := "" } := rfl

/-- Unfolding of the genesis chain into an explicit one-block list. -/
theorem newTicketBlockchain_chain (gts : String) :
    (newTicketBlockchain gts).chain =
      [{ genesisBlock gts with hash := compute_hash (genesisBlock gts) }] := rfl

theorem proof_of_work_hash (b : Block) (hh : ∃ n, powOk b n = true) :
    (proof_of_work b hh).hash = compute_hash { b with nonce := Nat.find hh } := rfl

theorem proof_of_work_prev (b : Block) (hh : ∃ n, powOk b n = true) :
    (proof_of_work b hh).previous_hash = b.previous_hash := rfl

theorem newBlockOf_prev (s : TicketBlockchain) (ts : String) :
    (newBlockOf s ts).previous_hash = compute_hash s.chain.getLast! := rfl

theorem proof_of_work_recompute (b : Block) (hh : ∃ n, powOk b n = true) :
    (proof_of_work b hh).hash = compute_hash (proof_of_work b hh) := by
  rw [proof_of_work_def b hh]
  exact (compute_hash_nonce_hash b (Nat.find hh)
    (compute_hash { b with nonce := Nat.find hh })).symm

/-! ## `getLast` facts (Python `chain[-1]`) -/

theorem getLast_bang_eq (l : List Block) (h : l ≠ []) : l.getLast! = l.getLast h := by
  cases l with
  | nil => exact absurd rfl h
  | cons a as => rfl

theorem getLast?_eq_bang (l : List Block) (h : l ≠ []) : l.getLast? = some l.getLast! := by
  rw [getLast_bang_eq l h]
  exact List.getLast?_eq_getLast l h

/-! ## Success / failure shape lemmas for transfer and redeem -/

theorem transfer_ticket_success (s : TicketBlockchain) (tid nw ts : String) (t : Ticket)
    (hget : dictGet s.tickets tid = some t) (hst : t.status = "valid") :
    transfer_ticket s tid nw ts =
      ({ chain := s.chain,
         pending_transactions := s.pending_transactions ++
           [⟨"transfer", tid, t.owner, none, some nw, ts⟩],
         tickets := dictSet s.tickets tid { t with owner := nw } }, true) := by
  unfold transfer_ticket add_transaction
  rw [hget]
  simp [hst]

theorem redeem_ticket_success (s : TicketBlockchain) (tid ts : String) (t : Ticket)
    (hget : dictGet s.tickets tid = some t) (hst : t.status = "valid") :
    redeem_ticket s tid ts =
      ({ chain := s.chain,
         pending_transactions := s.pending_transactions ++
           [⟨"redeem", tid, t.owner, none, none, ts⟩],
         tickets := dictSet s.tickets tid { t with status := "redeemed" } }, true) := by
  unfold redeem_ticket add_transaction
  rw [hget]
  simp [hst]

/-! ## Preservation of the chain invariant -/

theorem chainInv_of_chain_eq (s s2 : TicketBlockchain) (hc : s2.chain = s.chain)
    (h : ChainInv s) : ChainInv s2 := by
  unfold ChainInv at h ⊢
  rw [hc]
  exact h

theorem chainInv_init (gts : String) : ChainInv (newTicketBlockchain gts) := by
  unfold ChainInv
  rw [newTicketBlockchain_chain]
  refine ⟨List.cons_ne_nil _ _, ?_, List.chain'_singleton _, ?_⟩
  · intro b hb
    rw [List.mem_singleton] at hb
    subst hb
    exact (compute_hash_set_hash (genesisBlock gts) (compute_hash (genesisBlock gts))).symm
  · intro b hb h0
    rw [List.mem_singleton] at hb
    subst hb
    exact absurd h0 (Nat.lt_irrefl 0)

theorem chainInv_mine (s : TicketBlockchain) (ts : String)
    (h : s.pending_transactions ≠ [] → ∃ n, powOk (newBlockOf s ts) n = true)
    (hinv : ChainInv s) : ChainInv (mine s ts h).1 := by
  obtain ⟨hne, hhash, hlink, hpow⟩ := hinv
  unfold mine
  split
  · exact ⟨hne, hhash, hlink, hpow⟩
  · rename_i hp
    refine ⟨?_, ?_, ?_, ?_⟩
    · intro hq
      rw [List.append_eq_nil] at hq
      exact List.cons_ne_nil _ _ hq.2
    · intro b hb
      rcases List.mem_append.1 hb with hb2 | hb2
      · exact hhash b hb2
      · rw [List.mem_singleton] at hb2
        subst hb2
        exact proof_of_work_recompute (newBlockOf s ts) (h hp)
    · rw [List.chain'_append]
      refine ⟨hlink, List.chain'_singleton _, ?_⟩
      intro x hx y hy
      simp only [List.head?_cons, Option.mem_def, Option.some.injEq] at hy
      rw [Option.mem_def, getLast?_eq_bang s.chain hne, Option.some.injEq] at hx
      subst hy
      subst hx
      have hmem : s.chain.getLast! ∈ s.chain := by
        rw [getLast_bang_eq s.chain hne]
        exact List.getLast_mem hne
      rw [proof_of_work_prev, newBlockOf_prev, hhash _ hmem]
    · intro b hb h0
      rcases List.mem_append.1 hb with hb2 | hb2
      · exact hpow b hb2 h0
      · rw [List.mem_singleton] at hb2
        subst hb2
        rw [proof_of_work_hash]
        have hsp := Nat.find_spec (h hp)
        unfold powOk at hsp
        exact hsp

theorem chainInv_step (s s2 : TicketBlockchain) (hstep : Step s s2) (hinv : ChainInv s) :
    ChainInv s2 := by
  cases hstep with
  | issue tid o e ts fresh =>
    exact chainInv_of_chain_eq _ _ (issue_ticket_chain s tid o e ts) hinv
  | transfer tid nw ts =>
    exact chainInv_of_chain_eq _ _ (transfer_ticket_chain s tid nw ts) hinv
  | redeem tid ts =>
    exact chainInv_of_chain_eq _ _ (redeem_ticket_chain s tid ts) hinv
  | mineStep ts h => exact chainInv_mine s ts h hinv

theorem reachable_chainInv (s : TicketBlockchain) (hs : Reachable s) : ChainInv s := by
  obtain ⟨gts, hr⟩ := hs
  induction hr with
  | refl => exact chainInv_init gts
  | tail hab hstep ih => exact chainInv_step _ _ hstep ih

/-! ## Preservation of terminal (redeemed) ticket state -/

theorem step_keeps_redeemed (s s2 : TicketBlockchain) (hstep : Step s s2) (tid : String)
    (t : Ticket) (hget : dictGet s.tickets tid = some t) (hst : t.status = "redeemed") :
    dictGet s2.tickets tid = some t := by
  cases hstep with
  | issue i o e ts fresh =>
    have hne : tid ≠ i := by
      intro he
      rw [he, fresh] at hget
      cases hget
    rw [issue_ticket_tickets, dictGet_dictSet_ne _ _ _ _ hne]
    exact hget
  | transfer i nw ts =>
    cases hg : dictGet s.tickets i with
    | none =>
      rw [transfer_ticket_none s i nw ts hg]
      exact hget
    | some u =>
      by_cases hu : u.status = "valid"
      · have hne : tid ≠ i := by
          intro he
          rw [he, hg] at hget
          have hut : u = t := Option.some_inj.mp hget
          rw [hut, hst] at hu
          exact absurd hu (by decide)
        rw [transfer_ticket_success s i nw ts u hg hu]
        show dictGet (dictSet s.tickets i _) tid = some t
        rw [dictGet_dictSet_ne _ _ _ _ hne]
        exact hget
      · rw [transfer_ticket_stale s i nw ts u hg hu]
        exact hget
  | redeem i ts =>
    cases hg : dictGet s.tickets i with
    | none =>
      rw [redeem_ticket_none s i ts hg]
      exact hget
    | some u =>
      by_cases hu : u.status = "valid"
      · have hne : tid ≠ i := by
          intro he
          rw [he, hg] at hget
          have hut : u = t := Option.some_inj.mp hget
          rw [hut, hst] at hu
          exact absurd hu (by decide)
        rw [redeem_ticket_success s i ts u hg hu]
        show dictGet (dictSet s.tickets i _) tid = some t
        rw [dictGet_dictSet_ne _ _ _ _ hne]
        exact hget
      · rw [redeem_ticket_stale s i ts u hg hu]
        exact hget
  | mineStep ts h =>
    rw [mine_tickets]
    exact hget

theorem rtc_keeps_redeemed (s s2 : TicketBlockchain)
    (h : Relation.ReflTransGen Step s s2) (tid : String) (t : Ticket)
    (hget : dictGet s.tickets tid = some t) (hst : t.status = "redeemed") :
    dictGet s2.tickets tid = some t := by
  induction h with
  | refl => exact hget
  | tail hab hstep ih => exact step_keeps_redeemed _ _ hstep tid t ih hst

theorem set_redeemed_status_ne (t : Ticket) :
    ({ t with status := "redeemed" } : Ticket).status ≠ "valid" := by
  change ("redeemed" : String) ≠ "valid"
  decide

/-! ## Reachability of the mined test state -/

theorem minedTestState_reachable : Reachable minedTestState :=
  ⟨"1700000000.0",
   Relation.ReflTransGen.tail
     (Relation.ReflTransGen.tail Relation.ReflTransGen.refl
       (Step.issue genesisTestState "t1" "Alice" "Concert A" "2.5" rfl))
     (Step.mineStep issuedTestState "3.0" issuedMineEv)⟩

/-! ## Claim theorems -/

/-- C1 (amended): in every reachable ledger state, every block's stored hash is
reproduced by recomputing it from the stored fields, and every block at index
greater than 0 has a hash whose hex representation starts with `difficulty`
(= 2) zero characters.  The genesis block is exempt from the difficulty
predicate, because `create_genesis_block` assigns its hash without running
proof-of-work (see `C1_counterexample`). -/
theorem C1_theorem (s : TicketBlockchain) (hs : Reachable s) :
    ∀ b ∈ s.chain, compute_hash b = b.hash ∧
      (0 < b.index → startswith b.hash difficultyTarget = true) := by
  obtain ⟨-, hhash, -, hpow⟩ := reachable_chainInv s hs
  intro b hb
  exact ⟨(hhash b hb).symm, fun h0 => hpow b hb h0⟩

theorem C1_witness :
    Reachable genesisTestState ∧
    ∀ b ∈ genesisTestState.chain, compute_hash b = b.hash ∧
      (0 < b.index → startswith b.hash difficultyTarget = true) :=
  ⟨genesisTestState_reachable, C1_theorem genesisTestState genesisTestState_reachable⟩

/-- C2: in every reachable ledger state, every non-genesis block's
`previous_hash` equals the stored `hash` of its predecessor in the chain. -/
theorem C2_theorem (s : TicketBlockchain) (hs : Reachable s) (i : Nat)
    (hi : i + 1 < s.chain.length) :
    (s.chain.get ⟨i + 1, hi⟩).previous_hash =
      (s.chain.get ⟨i, Nat.lt_of_succ_lt hi⟩).hash := by
  have hc := (reachable_chainInv s hs).2.2.1
  rw [List.chain'_iff_get] at hc
  exact hc i (by omega)

theorem C2_witness :
    Reachable minedTestState ∧
    (minedTestState.chain.get ⟨1, by decide⟩).previous_hash =
      (minedTestState.chain.get ⟨0, by decide⟩).hash :=
  ⟨minedTestState_reachable, C2_theorem minedTestState minedTestState_reachable 0 (by decide)⟩

/-- C3: mining a state with a non-empty pending pool yields a block at
index `len chain` whose transactions are exactly the pending transactions in
order, appends it to the chain, and empties the pending pool. -/
theorem C3_theorem (s : TicketBlockchain) (ts : String)
    (h : s.pending_transactions ≠ [] → ∃ n, powOk (newBlockOf s ts) n = true)
    (hp : s.pending_transactions ≠ []) :
    ∃ b : Block, (mine s ts h).2 = some b ∧ b.index = s.chain.length ∧
      b.transactions = s.pending_transactions ∧
      (mine s ts h).1.chain = s.chain ++ [b] ∧
      (mine s ts h).1.pending_transactions = [] := by
  unfold mine
  rw [dif_neg hp]
  exact ⟨proof_of_work (newBlockOf s ts) (h hp), rfl, rfl, rfl, rfl, rfl⟩

theorem C3_witness :
    issuedTestState.pending_transactions ≠ [] ∧
    ∃ b : Block, (mine issuedTestState "3.0" issuedMineEv).2 = some b ∧
      b.index = issuedTestState.chain.length ∧
      b.transactions = issuedTestState.pending_transactions ∧
      (mine issuedTestState "3.0" issuedMineEv).1.chain = issuedTestState.chain ++ [b] ∧
      (mine issuedTestState "3.0" issuedMineEv).1.pending_transactions = [] :=
  ⟨by decide, C3_theorem issuedTestState "3.0" issuedMineEv (by decide)⟩

/-- C4: `transfer_ticket` and `redeem_ticket` on an unknown ticket id, or on a
ticket whose status is not `"valid"`, return `false` and leave the entire
state (ticket index, pending pool, chain) unchanged. -/
theorem C4_theorem (s : TicketBlockchain) (tid nw ts ts2 : String)
    (hbad : dictGet s.tickets tid = none ∨
      ∃ t, dictGet s.tickets tid = some t ∧ t.status ≠ "valid") :
    transfer_ticket s tid nw ts = (s, false) ∧ redeem_ticket s tid ts2 = (s, false) := by
  rcases hbad with hnone | ⟨t, hget, hst⟩
  · exact ⟨transfer_ticket_none s tid nw ts hnone, redeem_ticket_none s tid ts2 hnone⟩
  · exact ⟨transfer_ticket_stale s tid nw ts t hget hst,
           redeem_ticket_stale s tid ts2 t hget hst⟩

theorem C4_witness :
    (dictGet mixedTestState.tickets "t2" = none ∨
      ∃ t, dictGet mixedTestState.tickets "t2" = some t ∧ t.status ≠ "valid") ∧
    transfer_ticket mixedTestState "t2" "Mallory" "4.0" = (mixedTestState, false) ∧
    redeem_ticket mixedTestState "t2" "4.5" = (mixedTestState, false) :=
  ⟨Or.inr ⟨⟨"Bob", "redeemed", "Concert B"⟩, by decide, by decide⟩,
   C4_theorem mixedTestState "t2" "Mallory" "4.0" "4.5"
     (Or.inr ⟨⟨"Bob", "redeemed", "Concert B"⟩, by decide, by decide⟩)⟩

/-- C5: redeeming is terminal.  After a successful `redeem_ticket`, in every
state reachable from the result by further engine steps the ticket's status is
still `"redeemed"`, and any later `transfer_ticket` or `redeem_ticket` on that
id returns `false` and changes nothing (in particular appends no
transaction); redeeming twice yields `true` then `false` (take the
reflexive case of `hlater`). -/
theorem C5_theorem (s : TicketBlockchain) (tid ts : String)
    (hr : (redeem_ticket s tid ts).2 = true)
    (s2 : TicketBlockchain)
    (hlater : Relation.ReflTransGen Step (redeem_ticket s tid ts).1 s2) :
    (∃ t2, dictGet s2.tickets tid = some t2 ∧ t2.status = "redeemed") ∧
    (∀ nw ts2, transfer_ticket s2 tid nw ts2 = (s2, false)) ∧
    (∀ ts2, redeem_ticket s2 tid ts2 = (s2, false)) := by
  cases hget : dictGet s.tickets tid with
  | none =>
    rw [redeem_ticket_none s tid ts hget] at hr
    simp at hr
  | some t =>
    by_cases hst : t.status = "valid"
    · have hs1 : dictGet (redeem_ticket s tid ts).1.tickets tid =
          some { t with status := "redeemed" } := by
        rw [redeem_ticket_success s tid ts t hget hst]
        exact dictGet_dictSet_self _ _ _
      have hs2 : dictGet s2.tickets tid = some { t with status := "redeemed" } :=
        rtc_keeps_redeemed _ _ hlater tid _ hs1 rfl
      refine ⟨⟨_, hs2, rfl⟩, ?_, ?_⟩
      · intro nw ts2
        exact transfer_ticket_stale s2 tid nw ts2 _ hs2 (set_redeemed_status_ne t)
      · intro ts2
        exact redeem_ticket_stale s2 tid ts2 _ hs2 (set_redeemed_status_ne t)
    · rw [redeem_ticket_stale s tid ts t hget hst] at hr
      simp at hr

theorem C5_witness :
    (redeem_ticket mixedTestState "t1" "5.0").2 = true ∧
    ((∃ t2, dictGet (redeem_ticket mixedTestState "t1" "5.0").1.tickets "t1" = some t2 ∧
        t2.status = "redeemed") ∧
     (∀ nw ts2, transfer_ticket (redeem_ticket mixedTestState "t1" "5.0").1 "t1" nw ts2 =
        ((redeem_ticket mixedTestState "t1" "5.0").1, false)) ∧
     (∀ ts2, redeem_ticket (redeem_ticket mixedTestState "t1" "5.0").1 "t1" ts2 =
        ((redeem_ticket mixedTestState "t1" "5.0").1, false))) :=
  ⟨by decide,
   C5_theorem mixedTestState "t1" "5.0" (by decide) _ Relation.ReflTransGen.refl⟩

/-- C6: `issue_ticket` always succeeds: it returns the given fresh id, appends
exactly one `issue` transaction to the pending pool, inserts
`{owner, "valid", event}` into the ticket index under that id so that an
immediate `verify_ticket` (before any mining) returns it, and leaves the chain
untouched. -/
theorem C6_theorem (s : TicketBlockchain) (ticket_id owner event ts : String) :
    (issue_ticket s ticket_id owner event ts).2 = ticket_id ∧
    (issue_ticket s ticket_id owner event ts).1.pending_transactions =
      s.pending_transactions ++ [⟨"issue", ticket_id, owner, some event, none, ts⟩] ∧
    verify_ticket (issue_ticket s ticket_id owner event ts).1 ticket_id =
      some ⟨owner, "valid", event⟩ ∧
    (issue_ticket s ticket_id owner event ts).1.chain = s.chain := by
  refine ⟨rfl, rfl, ?_, rfl⟩
  exact dictGet_dictSet_self s.tickets ticket_id ⟨owner, "valid", event⟩

/-- C7: `mine` on a state with an empty pending pool returns `none` and leaves
the state entirely unchanged (a no-op, not an error). -/
theorem C7_theorem (s : TicketBlockchain) (ts : String)
    (h : s.pending_transactions ≠ [] → ∃ n, powOk (newBlockOf s ts) n = true)
    (hp : s.pending_transactions = []) :
    mine s ts h = (s, none) := by
  unfold mine
  rw [dif_pos hp]

theorem C7_witness :
    emptyTestState.pending_transactions = [] ∧
    mine emptyTestState "1.0" (fun hne => absurd rfl hne) = (emptyTestState, none) :=
  ⟨rfl, C7_theorem emptyTestState "1.0" (fun hne => absurd rfl hne) rfl⟩

/-- C9: `proof_of_work` performs the minimal-nonce search of the source's
`while` loop: under the hypothesis that some nonce satisfies the difficulty
predicate, it terminates with the block's nonce at the least satisfying value
(every smaller nonce fails the predicate), and the hash it stores is the
block's hash at that nonce, which starts with `difficulty` zero characters. -/
theorem C9_theorem (b : Block) (hh : ∃ n, powOk b n = true) :
    powOk b (proof_of_work b hh).nonce = true ∧
    (∀ m, m < (proof_of_work b hh).nonce → powOk b m = false) ∧
    (proof_of_work b hh).hash = compute_hash { b with nonce := (proof_of_work b hh).nonce } ∧
    startswith (proof_of_work b hh).hash difficultyTarget = true := by
  have hnonce : (proof_of_work b hh).nonce = Nat.find hh := rfl
  refine ⟨?_, ?_, ?_, ?_⟩
  · rw [hnonce]
    exact Nat.find_spec hh
  · intro m hm
    rw [hnonce] at hm
    exact Bool.eq_false_iff.mpr (Nat.find_min hh hm)
  · rw [hnonce]
    exact proof_of_work_hash b hh
  · rw [proof_of_work_hash b hh]
    have hsp := Nat.find_spec hh
    unfold powOk at hsp
    exact hsp

theorem C9_witness :
    powOk powTestBlock (proof_of_work powTestBlock powTestEv).nonce = true ∧
    (∀ m, m < (proof_of_work powTestBlock powTestEv).nonce →
      powOk powTestBlock m = false) ∧
    (proof_of_work powTestBlock powTestEv).hash =
      compute_hash { powTestBlock with nonce := (proof_of_work powTestBlock powTestEv).nonce } ∧
    startswith (proof_of_work powTestBlock powTestEv).hash difficultyTarget = true :=
  C9_theorem powTestBlock powTestEv

/-- C10: frame property of the ticket-index mutations.  A successful transfer
changes only the entry's `owner` (status and event are kept, every other index
entry and the chain are unchanged), so the ticket stays `"valid"` and can
still be transferred or redeemed; a successful redeem changes only the
entry's `status` (owner and event kept, every other entry and the chain
unchanged). -/
theorem C10_theorem (s : TicketBlockchain) (tid nw nw2 ts rts ts2 ts3 : String) (t : Ticket)
    (hget : dictGet s.tickets tid = some t)
    (htr : (transfer_ticket s tid nw ts).2 = true)
    (hrd : (redeem_ticket s tid rts).2 = true) :
    t.status = "valid" ∧
    (transfer_ticket s tid nw ts).1.chain = s.chain ∧
    dictGet (transfer_ticket s tid nw ts).1.tickets tid = some ⟨nw, t.status, t.event⟩ ∧
    (∀ k, k ≠ tid → dictGet (transfer_ticket s tid nw ts).1.tickets k = dictGet s.tickets k) ∧
    (transfer_ticket (transfer_ticket s tid nw ts).1 tid nw2 ts2).2 = true ∧
    (redeem_ticket (transfer_ticket s tid nw ts).1 tid ts3).2 = true ∧
    (redeem_ticket s tid rts).1.chain = s.chain ∧
    dictGet (redeem_ticket s tid rts).1.tickets tid = some ⟨t.owner, "redeemed", t.event⟩ ∧
    (∀ k, k ≠ tid → dictGet (redeem_ticket s tid rts).1.tickets k = dictGet s.tickets k) := by
  by_cases hst : t.status = "valid"
  case neg =>
    rw [transfer_ticket_stale s tid nw ts t hget hst] at htr
    simp at htr
  case pos =>
    have htr2 := transfer_ticket_success s tid nw ts t hget hst
    have hrd2 := redeem_ticket_success s tid rts t hget hst
    have hget2 : dictGet (transfer_ticket s tid nw ts).1.tickets tid =
        some { t with owner := nw } := by
      rw [htr2]
      exact dictGet_dictSet_self _ _ _
    refine ⟨hst, ?_, ?_, ?_, ?_, ?_, ?_, ?_, ?_⟩
    · rw [htr2]
    · rw [hget2]
    · intro k hk
      rw [htr2]
      exact dictGet_dictSet_ne _ _ _ _ hk
    · rw [transfer_ticket_success (transfer_ticket s tid nw ts).1 tid nw2 ts2
        { t with owner := nw } hget2 hst]
    · rw [redeem_ticket_success (transfer_ticket s tid nw ts).1 tid ts3
        { t with owner := nw } hget2 hst]
    · rw [hrd2]
    · rw [hrd2]
      exact dictGet_dictSet_self _ _ _
    · intro k hk
      rw [hrd2]
      exact dictGet_dictSet_ne _ _ _ _ hk

theorem C10_witness :
    dictGet mixedTestState.tickets "t1" = some ⟨"Alice", "valid", "Concert A"⟩ ∧
    (transfer_ticket mixedTestState "t1" "Carol" "6.0").2 = true ∧
    (redeem_ticket mixedTestState "t1" "6.5").2 = true ∧
    (Ticket.mk "Alice" "valid" "Concert A").status = "valid" ∧
    (transfer_ticket mixedTestState "t1" "Carol" "6.0").1.chain = mixedTestState.chain ∧
    dictGet (transfer_ticket mixedTestState "t1" "Carol" "6.0").1.tickets "t1" =
      some ⟨"Carol", (Ticket.mk "Alice" "valid" "Concert A").status,
        (Ticket.mk "Alice" "valid" "Concert A").event⟩ ∧
    (∀ k, k ≠ "t1" → dictGet (transfer_ticket mixedTestState "t1" "Carol" "6.0").1.tickets k =
      dictGet mixedTestState.tickets k) ∧
    (transfer_ticket (transfer_ticket mixedTestState "t1" "Carol" "6.0").1 "t1" "Dave"
      "7.0").2 = true ∧
    (redeem_ticket (transfer_ticket mixedTestState "t1" "Carol" "6.0").1 "t1" "7.5").2 = true ∧
    (redeem_ticket mixedTestState "t1" "6.5").1.chain = mixedTestState.chain ∧
    dictGet (redeem_ticket mixedTestState "t1" "6.5").1.tickets "t1" =
      some ⟨(Ticket.mk "Alice" "valid" "Concert A").owner, "redeemed",
        (Ticket.mk "Alice" "valid" "Concert A").event⟩ ∧
    (∀ k, k ≠ "t1" → dictGet (redeem_ticket mixedTestState "t1" "6.5").1.tickets k =
      dictGet mixedTestState.tickets k) := by
  refine ⟨by decide, by decide, by decide, ?_⟩
  exact C10_theorem mixedTestState "t1" "Carol" "Dave" "6.0" "6.5" "7.0" "7.5"
    ⟨"Alice", "valid", "Concert A"⟩ (by decide) (by decide) (by decide)

